import Mathlib

/-!
Verification of the Nazca360 backend (`src/backend/server.py`) against its
natural-language specification.

The relevant routes are shallowly embedded as pure Lean functions over an
explicit database state:

* reservation slot catalog and availability (`get_available_slots`),
* reservation creation (`create_reservation_checkout`) and status update
  (`update_reservation`),
* payment reconciliation (`get_subscription_status` poll path and
  `stripe_webhook` push path),
* chunked uploads (`upload_chunk`, `complete_chunked_upload`),
* range streaming (`stream_video`).

MongoDB collections are modelled as Lean lists of records; `find_one` is
`List.find?`, `update_one` updates the first matching record, `insert_one`
appends.  Timestamps are modelled as naturals counting days, so
`now + timedelta(days = d)` becomes `now + d`.  Fields of the Python models
that no modelled operation ever reads (user_name, user_email, qr_code,
created_at on reservations, amounts and currencies) are omitted.
-/

/-- A document of the `reservations` collection (Python model
`CabinReservation`), restricted to the fields the modelled routes read. -/
structure Reservation where
  id : String
  user_id : String
  reservation_date : String
  time_slot : String
  cabin_number : Nat
  status : String
  stripe_session_id : Option String
deriving DecidableEq

/-- Two-digit zero-padded rendering of a clock component, modelling the
Python format string `f"{n:02d}"` for the values 0..59 used here. -/
def pad2 (n : Nat) : String :=
  if n < 10 then "0" ++ toString n else toString n

/-- Label of the 20-minute slot starting at hour `h`, minute `m`, as built in
`get_available_slots`: `f"{start_time}-{end_time}"` with end-time carry at 60
minutes. -/
def slotLabel (h m : Nat) : String :=
  let em := m + 20
  let eh := if 60 ≤ em then h + 1 else h
  let em2 := if 60 ≤ em then em - 60 else em
  pad2 h ++ ":" ++ pad2 m ++ "-" ++ pad2 eh ++ ":" ++ pad2 em2

/-- The slot catalog of `get_available_slots`: for each hour in
`range(9, 18)` and each minute in `[0, 20, 40]`, one 20-minute window.  The
catalog is a constant: it does not depend on the date or the cabin. -/
def allSlots : List String :=
  (List.range' 9 9).flatMap (fun h => [slotLabel h 0, slotLabel h 20, slotLabel h 40])

/-- The cabin-specific branch of `get_available_slots`: catalog slots not
held by a non-cancelled reservation for `(date, cabin)`. -/
def get_available_slots_cabin (resvs : List Reservation) (date : String) (cabin : Nat) :
    List String :=
  let booked := (resvs.filter
      (fun r => r.reservation_date == date && r.cabin_number == cabin &&
        r.status != "cancelled")).map (fun r => r.time_slot)
  allSlots.filter (fun slot => booked.contains slot = false)

/-- One entry of the all-cabins branch of `get_available_slots`. -/
structure SlotAvailability where
  time_slot : String
  available_cabins_count : Nat
  available_cabin_numbers : List Nat
deriving DecidableEq

/-- The `booked_cabins` list the code computes for one slot: cabin numbers of
the non-cancelled reservations of `date` whose `time_slot` equals `slot`
(one occurrence per reservation record, not deduplicated). -/
def bookedCabinsFor (resvs : List Reservation) (date slot : String) : List Nat :=
  ((resvs.filter (fun r => r.reservation_date == date && r.status != "cancelled")).filter
    (fun r => r.time_slot == slot)).map (fun r => r.cabin_number)

/-- The all-cabins branch of `get_available_slots`: for each catalog slot the
code computes `available_cabins_count = 3 - len(booked_cabins)` and
`available_cabin_numbers = [i for i in [1,2,3] if i not in booked_cabins]`,
and appends an entry only when the count is positive.  (The Python count is
an `int` and could be negative; the entry is emitted only when it is
positive, where `Nat` and `Int` subtraction agree.) -/
def get_available_slots_all (resvs : List Reservation) (date : String) :
    List SlotAvailability :=
  allSlots.filterMap (fun slot =>
    let booked := bookedCabinsFor resvs date slot
    if 0 < 3 - booked.length then
      some ⟨slot, 3 - booked.length, [1, 2, 3].filter (fun i => booked.contains i = false)⟩
    else none)

/-- Outcome of `create_reservation_checkout` (the checkout-session creation
with the external provider is outside the model; the route returns its URL
on success). -/
inductive CreateResult where
  | invalidCabin
  | slotConflict
  | created (reservations : List Reservation)
deriving DecidableEq

/-- The conflict predicate of `create_reservation_checkout`: the reservation
record occupies the `(date, slot, cabin)` triple and is not cancelled. -/
def occupiesTriple (r : Reservation) (date slot : String) (cabin : Nat) : Bool :=
  r.reservation_date == date && r.time_slot == slot && r.cabin_number == cabin &&
    r.status != "cancelled"

/-- `create_reservation_checkout`: rejects cabins outside `[1, 2, 3]`, then
fails with the slot-conflict error (HTTP 400, "Cabina ... ya está reservada")
if `find_one` locates a non-cancelled reservation on the triple, otherwise
inserts a new record with status `"pending"` carrying the checkout session
id.  `newId` and `sessionId` stand for the generated uuid and the provider
session id. -/
def create_reservation_checkout (resvs : List Reservation) (uid date slot : String)
    (cabin : Nat) (newId sessionId : String) : CreateResult :=
  if (cabin == 1 || cabin == 2 || cabin == 3) = false then .invalidCabin
  else if resvs.any (fun r => occupiesTriple r date slot cabin) then .slotConflict
  else .created (resvs ++ [⟨newId, uid, date, slot, cabin, "pending", some sessionId⟩])

/-- Replace the first element satisfying `p` by its image under `f`,
modelling MongoDB `update_one`. -/
def updateFirst (p : α → Bool) (f : α → α) : List α → List α
  | [] => []
  | x :: xs => if p x then f x :: xs else x :: updateFirst p f xs

/-- Outcome of `update_reservation`. -/
inductive UpdateResult where
  | notFound
  | updated (reservations : List Reservation)
deriving DecidableEq

/-- `update_reservation` (PUT /reservations/{id}): 404 unless `find_one`
locates a reservation with this id owned by the caller; otherwise
`update_one` on the id filter sets `status` to the caller-supplied string
verbatim. -/
def update_reservation (resvs : List Reservation) (callerId resvId status : String) :
    UpdateResult :=
  match resvs.find? (fun r => r.id == resvId && r.user_id == callerId) with
  | none => .notFound
  | some _ =>
      .updated (updateFirst (fun r => r.id == resvId)
        (fun r => { r with status := status }) resvs)

example : allSlots.length = 27 := by decide
example : "09:00-09:20" ∈ allSlots := by decide
example : "17:40-18:00" ∈ allSlots := by decide

/-- A document of the `users` collection (Python model `User`), restricted to
the fields the modelled routes read. -/
structure UserRec where
  user_id : String
  role : String
  subscription_plan : String
deriving DecidableEq

/-- A document of the `subscriptions` collection (Python model
`Subscription`), dates as day numbers. -/
structure SubscriptionRec where
  user_id : String
  plan_type : String
  stripe_session_id : Option String
  payment_status : String
  start_date : Option Nat
  end_date : Option Nat
  created_at : Nat
deriving DecidableEq

/-- A document of the `payment_transactions` collection (Python model
`PaymentTransaction`); `metaType` and `metaPlanType` model the free-form
`metadata` keys `'type'` and `'plan_type'` (absent key = `none`). -/
structure PaymentTx where
  user_id : String
  session_id : String
  payment_status : String
  metaType : Option String
  metaPlanType : Option String
deriving DecidableEq

/-- The document-store state shared by the payment and reservation routes. -/
structure DBState where
  users : List UserRec
  subscriptions : List SubscriptionRec
  reservations : List Reservation
  payment_transactions : List PaymentTx
deriving DecidableEq

/-- `SUBSCRIPTION_PACKAGES[plan]['duration_days']`, with the code's
`SUBSCRIPTION_PACKAGES.get(plan_type, SUBSCRIPTION_PACKAGES['monthly'])`
fallback. -/
def planDuration (plan : String) : Nat :=
  if plan = "daily" then 1
  else if plan = "weekly" then 7
  else if plan = "monthly" then 30
  else if plan = "annual" then 365
  else 30

/-- The `$set` document both reconciliation paths apply to the matching
subscription once the session is paid: status `"paid"`,
`start_date = now`, `end_date = now + duration`. -/
def subMarkPaid (now dur : Nat) (s : SubscriptionRec) : SubscriptionRec :=
  { s with payment_status := "paid", start_date := some now, end_date := some (now + dur) }

/-- Outcome of `get_subscription_status` (GET /subscriptions/status/{id}).
`alreadyPaid` is the early return on a transaction already marked paid (no
provider call, no writes), `activated` the path where the provider now
reports the session paid, `pending` the fall-through; each carries the
resulting database state. -/
inductive PollResult where
  | txNotFound
  | alreadyPaid (db : DBState)
  | activated (db : DBState)
  | pending (db : DBState) (providerStatus : String)
deriving DecidableEq

/-- `get_subscription_status`: the client-poll reconciliation path.
`callerId` is the authenticated caller (`current_user.user_id`),
`providerStatus` the `payment_status` Stripe reports for the session, and
`now` the current time in days.  When the provider reports paid and the
stored transaction is not yet paid, the route marks the transaction paid,
stamps the matching subscription with `start_date = now` and
`end_date = now + duration`, and sets `subscription_plan` on the **caller's**
user record. -/
def get_subscription_status (db : DBState) (sessionId callerId providerStatus : String)
    (now : Nat) : PollResult :=
  match db.payment_transactions.find? (fun t => t.session_id == sessionId) with
  | none => .txNotFound
  | some tx =>
    if tx.payment_status == "paid" then .alreadyPaid db
    else if providerStatus == "paid" && tx.payment_status != "paid" then
      let planType := tx.metaPlanType.getD "monthly"
      let txs2 := updateFirst (fun t => t.session_id == sessionId)
        (fun t => { t with payment_status := "paid" }) db.payment_transactions
      let subs2 := updateFirst (fun s => s.stripe_session_id == some sessionId)
        (subMarkPaid now (planDuration planType)) db.subscriptions
      let users2 := updateFirst (fun u => u.user_id == callerId)
        (fun u => { u with subscription_plan := planType }) db.users
      .activated { users := users2, subscriptions := subs2, reservations := db.reservations, payment_transactions := txs2 }
    else .pending db providerStatus

/-- `stripe_webhook` on a `checkout.session.completed` event for `sessionId`
(signature verification delegated to the provider library is outside the
model).  The route unconditionally marks the transaction paid, re-reads it,
and then — with no already-paid guard — applies the side effect: for a
reservation-type transaction it confirms the matching reservation; otherwise
it re-stamps the matching subscription from the current time and re-sets the
plan on the user named by the transaction. -/
def stripe_webhook (db : DBState) (sessionId : String) (now : Nat) : DBState :=
  let txs := updateFirst (fun t => t.session_id == sessionId)
    (fun t => { t with payment_status := "paid" }) db.payment_transactions
  let db1 : DBState := { db with payment_transactions := txs }
  match txs.find? (fun t => t.session_id == sessionId) with
  | none => db1
  | some tx =>
    if tx.metaType.getD "subscription" == "reservation" then
      let rs2 := updateFirst (fun r => r.stripe_session_id == some sessionId)
        (fun r => { r with status := "confirmed" }) db1.reservations
      { db1 with reservations := rs2 }
    else
      let planType := tx.metaPlanType.getD "monthly"
      let subs2 := updateFirst (fun s => s.stripe_session_id == some sessionId)
        (subMarkPaid now (planDuration planType)) db1.subscriptions
      let users2 := updateFirst (fun u => u.user_id == tx.user_id)
        (fun u => { u with subscription_plan := planType }) db1.users
      { users := users2, subscriptions := subs2, reservations := db1.reservations, payment_transactions := db1.payment_transactions }

/-- The most recent paid subscription of a user:
`find_one({user_id, payment_status: "paid"}, sort=[("created_at", -1)])`.
MongoDB's sort-then-first is modelled as the first element attaining the
maximal `created_at` among the matches. -/
def latestPaidSubscription (subs : List SubscriptionRec) (uid : String) :
    Option SubscriptionRec :=
  (subs.filter (fun s => s.user_id == uid && s.payment_status == "paid")).foldl
    (fun acc s =>
      match acc with
      | none => some s
      | some b => if b.created_at < s.created_at then some s else acc) none

/-- The active-entitlement check of `get_videos` (src/backend/server.py lines
662-676): a user "has a subscription" when the user record's plan is not
`"basic"` and the most recent paid subscription has an `end_date` that is not
in the past. -/
def has_active_subscription (u : UserRec) (subs : List SubscriptionRec) (now : Nat) :
    Bool :=
  if u.subscription_plan != "basic" then
    match latestPaidSubscription subs u.user_id with
    | some s =>
      match s.end_date with
      | some e => decide (now ≤ e)
      | none => false
    | none => false
  else false

/-- An entry of the process-wide `chunked_uploads` table, as created by
`init_chunked_upload`: `received_chunks` is a Python `set` of indices. -/
structure UploadSession where
  filename : String
  original_filename : String
  total_size : Nat
  total_chunks : Nat
  received_chunks : Finset Nat
  user_id : String
deriving DecidableEq

/-- The on-disk chunk files of one upload session: the payload stored at
`uploads/{upload_id}_chunk_{i}`, or `none` when no such file exists.  Bytes
are modelled as naturals. -/
def ChunkStore : Type := Nat → Option (List Nat)

/-- Outcome of `upload_chunk`; `saved` carries the updated session entry, the
updated chunk files, and the `(received, total)` counts of the response. -/
inductive ChunkResult where
  | sessionNotFound
  | forbidden
  | saved (session : UploadSession) (store : ChunkStore) (received total : Nat)

/-- `upload_chunk` (POST /upload/chunk/{id}/{index}): 404 if the session is
unknown, 403 if the caller is not the owner; otherwise writes the payload to
the chunk file for `idx` (mode `'wb'`, overwriting any previous payload) and
adds `idx` to the received set. -/
def upload_chunk (sess : Option UploadSession) (store : ChunkStore) (callerId : String)
    (idx : Nat) (payload : List Nat) : ChunkResult :=
  match sess with
  | none => .sessionNotFound
  | some info =>
    if (info.user_id == callerId) = false then .forbidden
    else
      let store2 : ChunkStore := fun j => if j = idx then some payload else store j
      let info2 := { info with received_chunks := insert idx info.received_chunks }
      .saved info2 store2 info2.received_chunks.card info.total_chunks

/-- Outcome of `complete_chunked_upload`.  `incompleteUpload` is the 400
response `"Missing chunks: received {r} of {t}"`; `combineError` is the 500
response raised when combining fails (in particular when a chunk file in
`range(total_chunks)` does not exist). -/
inductive CompleteResult where
  | sessionNotFound
  | incompleteUpload (received total : Nat)
  | completed (filename : String) (blob : List Nat)
  | combineError
deriving DecidableEq

/-- The combine loop of `complete_chunked_upload`: read the chunk files for
the given indices in order and concatenate; `none` if some file is missing
(`open` raises). -/
def concatChunks (store : ChunkStore) : List Nat → Option (List Nat)
  | [] => some []
  | i :: rest =>
    match store i with
    | none => none
    | some c =>
      match concatChunks store rest with
      | none => none
      | some r => some (c ++ r)

/-- `complete_chunked_upload` (POST /upload/complete/{id}): 404 if the
session is unknown; the 400 incomplete error if
`len(received_chunks) != total_chunks` — a pure cardinality test; otherwise
concatenates the chunk files for indices `0, …, total_chunks-1` in index
order into the final blob. -/
def complete_chunked_upload (sess : Option UploadSession) (store : ChunkStore) :
    CompleteResult :=
  match sess with
  | none => .sessionNotFound
  | some info =>
    if (info.received_chunks.card == info.total_chunks) = false then
      .incompleteUpload info.received_chunks.card info.total_chunks
    else
      match concatChunks store (List.range info.total_chunks) with
      | some blob => .completed info.filename blob
      | none => .combineError

/-- Fold a list of chunk deliveries `(index, payload)` through
`upload_chunk`, threading the session entry and the chunk files; a delivery
rejected with an error response leaves the state unchanged. -/
def runUploads (st : UploadSession × ChunkStore) (ds : List (Nat × List Nat))
    (callerId : String) : UploadSession × ChunkStore :=
  ds.foldl (fun acc d =>
    match upload_chunk (some acc.1) acc.2 callerId d.1 d.2 with
    | .saved s2 store2 _ _ => (s2, store2)
    | _ => acc) st

/-- `startsWith` on character lists (pattern first). -/
def listStartsWith : List Char → List Char → Bool
  | [], _ => true
  | _ :: _, [] => false
  | p :: ps, c :: cs => p == c && listStartsWith ps cs

/-- `range_header.replace("bytes=", "")`: remove every (non-overlapping,
left-to-right) occurrence of the six characters `bytes=`. -/
def stripBytesTokens : List Char → List Char
  | 'b' :: 'y' :: 't' :: 'e' :: 's' :: '=' :: rest => stripBytesTokens rest
  | c :: rest => c :: stripBytesTokens rest
  | [] => []

/-- Python `str.split("-")`. -/
def splitOnDash (s : List Char) : List (List Char) :=
  match s with
  | [] => [[]]
  | c :: rest =>
    if c = '-' then [] :: splitOnDash rest
    else
      match splitOnDash rest with
      | [] => [[c]]
      | x :: xs => (c :: x) :: xs

/-- Python `int()` on the strings produced here: a nonempty digit string
parses to its value, anything else raises `ValueError` (`none`). -/
def digitsToNat (cs : List Char) : Option Nat :=
  if cs = [] then none
  else
    cs.foldl (fun acc c =>
      match acc with
      | some n => if c.isDigit then some (n * 10 + (c.toNat - 48)) else none
      | none => none) (some 0)

/-- The Range-header parsing of `stream_video`:
`range_match = range_header.replace("bytes=", "").split("-")`, then
`start = int(range_match[0]) if range_match[0] else 0` and
`end = int(range_match[1]) if range_match[1] else file_size - 1`.
`none` models an uncaught exception (ValueError from `int`, or IndexError
when there is no `-`). -/
def parseRange (h : String) (fileSize : Nat) : Option (Nat × Nat) :=
  match splitOnDash (stripBytesTokens h.data) with
  | p0 :: p1 :: _ =>
    let s? := if p0 = [] then some 0 else digitsToNat p0
    let e? := if p1 = [] then some (fileSize - 1) else digitsToNat p1
    match s?, e? with
    | some s, some e => some (s, e)
    | _, _ => none
  | _ => none

/-- `filename.endswith(('.mp4', '.webm', '.mov', '.avi'))`. -/
def strEndsWith (s suf : String) : Bool :=
  listStartsWith suf.data.reverse s.data.reverse

def isVideoFilename (name : String) : Bool :=
  strEndsWith name ".mp4" || strEndsWith name ".webm" ||
    strEndsWith name ".mov" || strEndsWith name ".avi"

/-- Outcome of `stream_video`.  `ranged s e total len` is the 206 response
with headers `Content-Range: bytes {s}-{e}/{total}` and
`Content-Length: {len}`; `full total` the 200 response serving the whole
file; `internalError` an uncaught exception (HTTP 500). -/
inductive StreamResult where
  | notFound
  | notVideo
  | unauthorized
  | forbidden
  | ranged (rangeStart rangeEnd total contentLength : Nat)
  | full (total : Nat)
  | internalError
deriving DecidableEq

/-- `stream_video` (GET /stream/{filename}).  `cred` is the result of
resolving the bearer token: `none` for a missing/invalid/expired credential
or unknown user (all 401), `some u` for a valid one.  The entitlement gate is
exactly `role != 'admin' and subscription_plan == 'basic'` — the user's
subscription documents and their expiry are never consulted here.  With a
Range header present, the requested window is clamped to 1 MiB:
`chunk = min(2^20, end - start + 1)`, `end = min(start + chunk - 1,
file_size - 1)`. -/
def stream_video (fileExists : Bool) (filename : String) (cred : Option UserRec)
    (fileSize : Nat) (rangeHeader : Option String) : StreamResult :=
  if fileExists = false then .notFound
  else if isVideoFilename filename = false then .notVideo
  else
    match cred with
    | none => .unauthorized
    | some u =>
      if u.role != "admin" && u.subscription_plan == "basic" then .forbidden
      else
        match rangeHeader with
        | none => .full fileSize
        | some h =>
          match parseRange h fileSize with
          | none => .internalError
          | some (s, e) =>
            let chunkSize := min (1024 * 1024) (e - s + 1)
            let e2 := min (s + chunkSize - 1) (fileSize - 1)
            .ranged s e2 fileSize (e2 - s + 1)

example : parseRange "bytes=0-99" 1000 = some (0, 99) := by decide
example : parseRange "bytes=abc-def" 1000 = none := by decide
example : parseRange "bytes=100-" 1000 = some (100, 999) := by decide
example : stream_video true "v.mp4" (some ⟨"a", "admin", "basic"⟩) 1000
    (some "bytes=0-99") = .ranged 0 99 1000 100 := by decide

/-! ### Helper lemmas about `updateFirst` (the `update_one` model) -/

theorem find?_updateFirst_same (q : α → Bool) (f : α → α) (l : List α)
    (hf : ∀ x, q (f x) = q x) :
    (updateFirst q f l).find? q = (l.find? q).map f := by
  induction l with
  | nil => rfl
  | cons x xs ih =>
    by_cases hx : q x = true
    · rw [updateFirst, if_pos hx, List.find?_cons_of_pos _ (by rw [hf]; exact hx),
        List.find?_cons_of_pos _ hx]
      rfl
    · rw [updateFirst, if_neg hx,
        List.find?_cons_of_neg _ (by simpa using hx),
        List.find?_cons_of_neg _ (by simpa using hx), ih]

theorem find?_updateFirst_of_disjoint (p q : α → Bool) (f : α → α) (l : List α)
    (hf : ∀ x, q (f x) = q x) (hpq : ∀ x, p x = true → q x = false) :
    (updateFirst p f l).find? q = l.find? q := by
  induction l with
  | nil => rfl
  | cons x xs ih =>
    by_cases hx : p x = true
    · have hqx : q x = false := hpq x hx
      rw [updateFirst, if_pos hx,
        List.find?_cons_of_neg _ (by simp [hf, hqx]),
        List.find?_cons_of_neg _ (by simp [hqx])]
    · by_cases hq : q x = true
      · rw [updateFirst, if_neg hx, List.find?_cons_of_pos _ hq,
          List.find?_cons_of_pos _ hq]
      · rw [updateFirst, if_neg hx,
          List.find?_cons_of_neg _ (by simpa using hq),
          List.find?_cons_of_neg _ (by simpa using hq), ih]

theorem updateFirst_mem (p : α → Bool) (f : α → α) (l : List α) :
    ∀ x ∈ updateFirst p f l, x ∈ l ∨ ∃ y ∈ l, p y = true ∧ x = f y := by
  induction l with
  | nil => intro x hx; simp [updateFirst] at hx
  | cons a t ih =>
    by_cases ha : p a = true
    · rw [updateFirst, if_pos ha]
      intro x hx
      rcases List.mem_cons.mp hx with h | h
      · exact Or.inr ⟨a, List.mem_cons_self a t, ha, h⟩
      · exact Or.inl (List.mem_cons_of_mem _ h)
    · rw [updateFirst, if_neg ha]
      intro x hx
      rcases List.mem_cons.mp hx with h | h
      · exact Or.inl (h ▸ List.mem_cons_self a t)
      · rcases ih x h with h1 | ⟨y, hy, hpy, hxy⟩
        · exact Or.inl (List.mem_cons_of_mem _ h1)
        · exact Or.inr ⟨y, List.mem_cons_of_mem _ hy, hpy, hxy⟩

theorem exists_updated_mem (p : α → Bool) (f : α → α) (l : List α) (y : α)
    (hy : y ∈ l) (hpy : p y = true) :
    ∃ z ∈ l, p z = true ∧ f z ∈ updateFirst p f l := by
  induction l with
  | nil => cases hy
  | cons a t ih =>
    by_cases ha : p a = true
    · refine ⟨a, List.mem_cons_self a t, ha, ?_⟩
      rw [updateFirst, if_pos ha]
      exact List.mem_cons_self _ _
    · have hyt : y ∈ t := by
        rcases List.mem_cons.mp hy with h | h
        · exact absurd (h ▸ hpy) (by simpa using ha)
        · exact h
      rcases ih hyt with ⟨z, hz, hpz, hmem⟩
      refine ⟨z, List.mem_cons_of_mem _ hz, hpz, ?_⟩
      rw [updateFirst, if_neg ha]
      exact List.mem_cons_of_mem _ hmem

/-! ### C7: range requests are clamped to 1 MiB -/

/-- C7: for every stored blob of size `N` and well-formed Range header
parsing to `(start, end)` with `start ≤ end < N`, `stream_video` returns 206
with `Content-Range: bytes start-end'/N` and `Content-Length = end'-start+1`,
where `end' = min(end, start + 2^20 - 1, N - 1)`. -/
theorem C7_range_request_clamped (h fname : String) (u : UserRec) (fileSize s e : Nat)
    (hname : isVideoFilename fname = true)
    (hent : (u.role != "admin" && u.subscription_plan == "basic") = false)
    (hp : parseRange h fileSize = some (s, e))
    (hse : s ≤ e) (hef : e < fileSize) :
    stream_video true fname (some u) fileSize (some h) =
      .ranged s (min e (min (s + 1048575) (fileSize - 1))) fileSize
        (min e (min (s + 1048575) (fileSize - 1)) - s + 1) := by
  have he2 : min (s + min 1048576 (e - s + 1) - 1) (fileSize - 1)
      = min e (min (s + 1048575) (fileSize - 1)) := by omega
  simp [stream_video, hname, hent, hp, he2]

/-- C7 witness: `bytes=0-99` on a 1000-byte blob yields 206,
`Content-Range: bytes 0-99/1000`, and exactly 100 bytes. -/
theorem C7_range_request_clamped_witness :
    parseRange "bytes=0-99" 1000 = some (0, 99) ∧
    stream_video true "v.mp4" (some ⟨"a", "admin", "premium"⟩) 1000
      (some "bytes=0-99") = .ranged 0 99 1000 100 := by
  refine ⟨by decide, ?_⟩
  have := C7_range_request_clamped "bytes=0-99" "v.mp4" ⟨"a", "admin", "premium"⟩
    1000 0 99 (by decide) (by decide) (by decide) (by decide) (by decide)
  simpa using this

/-! ### C8: malformed Range headers -/

/-- C8: at the concrete malformed header `bytes=abc-def`, `int()` raises an
uncaught `ValueError`, so the endpoint answers HTTP 500 (`internalError`)
instead of degrading to the full-content response it gives when no Range
header is present — the permissive behaviour the spec requires. -/
theorem C8_malformed_range_is_500 :
    stream_video true "v.mp4" (some ⟨"a", "admin", "premium"⟩) 1000
      (some "bytes=abc-def") = .internalError ∧
    stream_video true "v.mp4" (some ⟨"a", "admin", "premium"⟩) 1000 none =
      .full 1000 := by decide

/-! ### C9: the poll path upgrades the authenticated caller, not the payer -/

/-- C9: when the poll path reconciles a paid subscription session, the
`subscription_plan` upgrade is written to the user record of the
authenticated caller; the user recorded on the payment transaction, when
different, is left untouched. -/
theorem C9_poll_upgrades_caller_not_payer (db : DBState)
    (sid uidA callerId provider : String) (now : Nat) (tx : PaymentTx)
    (htx : db.payment_transactions.find? (fun t => t.session_id == sid) = some tx)
    (hA : tx.user_id = uidA)
    (hnp : tx.payment_status ≠ "paid")
    (hprov : provider = "paid")
    (hne : uidA ≠ callerId) :
    ∃ db2, get_subscription_status db sid callerId provider now = .activated db2 ∧
      db2.users.find? (fun u => u.user_id == callerId) =
        (db.users.find? (fun u => u.user_id == callerId)).map
          (fun u => { u with subscription_plan := tx.metaPlanType.getD "monthly" }) ∧
      db2.users.find? (fun u => u.user_id == uidA) =
        db.users.find? (fun u => u.user_id == uidA) := by
  refine ⟨{ users := updateFirst (fun u => u.user_id == callerId) (fun u => { u with subscription_plan := tx.metaPlanType.getD "monthly" }) db.users, subscriptions := updateFirst (fun s => s.stripe_session_id == some sid) (subMarkPaid now (planDuration (tx.metaPlanType.getD "monthly"))) db.subscriptions, reservations := db.reservations, payment_transactions := updateFirst (fun t => t.session_id == sid) (fun t => { t with payment_status := "paid" }) db.payment_transactions }, ?_, ?_, ?_⟩
  · simp [get_subscription_status, htx, hnp, hprov]
  · exact find?_updateFirst_same (fun u => u.user_id == callerId)
      (fun u => { u with subscription_plan := tx.metaPlanType.getD "monthly" })
      db.users (fun x => rfl)
  · refine find?_updateFirst_of_disjoint (fun u => u.user_id == callerId)
      (fun u => u.user_id == uidA)
      (fun u => { u with subscription_plan := tx.metaPlanType.getD "monthly" })
      db.users (fun x => rfl) ?_
    intro x hx
    simp only [beq_iff_eq] at hx
    simp only [beq_eq_false_iff_ne, hx]
    exact fun hcontra => hne hcontra.symm

/-- Concrete database for the C9 witness: user A paid for the session, user
B is an unrelated authenticated user. -/
def wDB9 : DBState :=
  { users := [⟨"A", "user", "basic"⟩, ⟨"B", "user", "basic"⟩],
    subscriptions := [⟨"A", "monthly", some "s1", "initiated", none, none, 0⟩],
    reservations := [],
    payment_transactions := [⟨"A", "s1", "initiated", some "subscription", some "monthly"⟩] }

/-- C9 witness: B polls A's paid session first; the plan upgrade lands on
B's user record while A's record is unchanged. -/
theorem C9_poll_upgrades_caller_not_payer_witness :
    ∃ db2, get_subscription_status wDB9 "s1" "B" "paid" 10 = .activated db2 ∧
      db2.users.find? (fun u => u.user_id == "B") =
        (wDB9.users.find? (fun u => u.user_id == "B")).map
          (fun u => { u with subscription_plan :=
            (some "monthly" : Option String).getD "monthly" }) ∧
      db2.users.find? (fun u => u.user_id == "A") =
        wDB9.users.find? (fun u => u.user_id == "A") :=
  C9_poll_upgrades_caller_not_payer wDB9 "s1" "A" "B" "paid" 10
    ⟨"A", "s1", "initiated", some "subscription", some "monthly"⟩
    (by decide) (by decide) (by decide) (by decide) (by decide)

/-! ### C10: update_reservation writes any caller-supplied status -/

/-- C10: the reservation update endpoint checks only that the reservation id
belongs to the caller (404 otherwise) and then writes the caller-supplied
status string verbatim — for every string `s`, including `"confirmed"`, the
owner can set their reservation's status to `s`. -/
theorem C10_update_reservation_arbitrary_status (resvs : List Reservation)
    (callerId rid s : String) :
    (update_reservation resvs callerId rid s = .notFound ↔
      ∀ r ∈ resvs, ¬(r.id = rid ∧ r.user_id = callerId)) ∧
    ((∃ r ∈ resvs, r.id = rid ∧ r.user_id = callerId) →
      ∃ resvs2, update_reservation resvs callerId rid s = .updated resvs2 ∧
        (∃ r2 ∈ resvs2, r2.id = rid ∧ r2.status = s) ∧
        (∀ x ∈ resvs2, x.id ≠ rid → x ∈ resvs)) := by
  constructor
  · constructor
    · intro hnf r hr hc
      cases hf : resvs.find? (fun r => r.id == rid && r.user_id == callerId) with
      | none =>
        rw [List.find?_eq_none] at hf
        exact hf r hr (by simp [hc.1, hc.2])
      | some r0 => simp [update_reservation, hf] at hnf
    · intro hall
      have hf : resvs.find? (fun r => r.id == rid && r.user_id == callerId) = none := by
        rw [List.find?_eq_none]
        intro a ha
        simp only [Bool.and_eq_true, beq_iff_eq]
        intro hc
        exact hall a ha ⟨hc.1, hc.2⟩
      simp [update_reservation, hf]
  · rintro ⟨r, hr, hid, hown⟩
    cases hf : resvs.find? (fun r => r.id == rid && r.user_id == callerId) with
    | none =>
      exfalso
      rw [List.find?_eq_none] at hf
      exact hf r hr (by simp [hid, hown])
    | some r0 =>
      refine ⟨updateFirst (fun r => r.id == rid) (fun r => { r with status := s }) resvs,
        by simp [update_reservation, hf], ?_, ?_⟩
      · obtain ⟨z, hz, hpz, hmem⟩ := exists_updated_mem (fun r => r.id == rid)
          (fun r => { r with status := s }) resvs r hr (by simp [hid])
        exact ⟨{ z with status := s }, hmem, by simpa using hpz, rfl⟩
      · intro x hx hne
        rcases updateFirst_mem _ _ _ x hx with hmem | ⟨y, hy, hpy, hxy⟩
        · exact hmem
        · exfalso
          apply hne
          subst hxy
          simpa using hpy

/-- Concrete reservation list for the C10 witness. -/
def wResvs10 : List Reservation :=
  [⟨"r1", "A", "2025-03-01", "09:00-09:20", 1, "pending", some "s1"⟩]

/-- C10 witness: owner A sets their pending reservation straight to
`"confirmed"` with no payment or lifecycle check. -/
theorem C10_update_reservation_arbitrary_status_witness :
    ∃ resvs2, update_reservation wResvs10 "A" "r1" "confirmed" = .updated resvs2 ∧
      (∃ r2 ∈ resvs2, r2.id = "r1" ∧ r2.status = "confirmed") ∧
      (∀ x ∈ resvs2, x.id ≠ "r1" → x ∈ wResvs10) :=
  (C10_update_reservation_arbitrary_status wResvs10 "A" "r1" "confirmed").2
    ⟨⟨"r1", "A", "2025-03-01", "09:00-09:20", 1, "pending", some "s1"⟩,
      by decide, by decide, by decide⟩

/-! ### C4: the streaming entitlement gate ignores subscription expiry -/

/-- Non-admin user whose user record still carries a paid plan name, with a
single paid subscription that expired at day 50. -/
def wUser4 : UserRec := ⟨"uA", "user", "monthly"⟩

def wSubs4 : List SubscriptionRec := [⟨"uA", "monthly", some "s9", "paid", some 0, some 50, 0⟩]

/-- C4 counterexample: at day 100 the user's most recent paid subscription is
expired (`has_active_subscription` — the entitlement check `get_videos`
performs — is false) and the role is not admin, yet `stream_video` serves the
full file instead of rejecting with Forbidden: the gate reads only the
`subscription_plan` field. -/
theorem C4_counterexample :
    has_active_subscription wUser4 wSubs4 100 = false ∧
    wUser4.role ≠ "admin" ∧
    stream_video true "v.mp4" (some wUser4) 1000 none = .full 1000 ∧
    stream_video true "v.mp4" (some wUser4) 1000 none ≠ .forbidden := by decide

/-- C4 amended: the streaming endpoint rejects with Forbidden exactly when
the resolved user's role is not `"admin"` and the user record's
`subscription_plan` equals `"basic"`; subscription documents and their expiry
are never consulted. -/
theorem C4_amended_stream_gate (u : UserRec) (fname : String) (fileSize : Nat)
    (rangeHeader : Option String) (hname : isVideoFilename fname = true) :
    stream_video true fname (some u) fileSize rangeHeader = .forbidden ↔
      (u.role ≠ "admin" ∧ u.subscription_plan = "basic") := by
  have hb : (u.role != "admin" && u.subscription_plan == "basic") = true ↔
      (u.role ≠ "admin" ∧ u.subscription_plan = "basic") := by
    simp [Bool.and_eq_true, bne_iff_ne]
  by_cases hg : (u.role != "admin" && u.subscription_plan == "basic") = true
  · rw [hb] at hg
    constructor
    · intro _
      exact hg
    · intro _
      simp [stream_video, hname, Bool.and_eq_true, bne_iff_ne, hg.1, hg.2]
  · rw [hb] at hg
    cases rangeHeader with
    | none => simp [stream_video, hname, Bool.and_eq_true, bne_iff_ne, hg]
    | some h =>
      cases hps : parseRange h fileSize with
      | none => simp [stream_video, hname, hps, Bool.and_eq_true, bne_iff_ne, hg]
      | some se =>
        obtain ⟨s, e⟩ := se
        simp [stream_video, hname, hps, Bool.and_eq_true, bne_iff_ne, hg]

/-- C4 amended witness: a non-admin user whose plan field is `"basic"` is
rejected with Forbidden. -/
theorem C4_amended_stream_gate_witness :
    stream_video true "v.mp4" (some ⟨"uB", "user", "basic"⟩) 1000 none =
      .forbidden :=
  (C4_amended_stream_gate ⟨"uB", "user", "basic"⟩ "v.mp4" 1000 none
    (by decide)).mpr ⟨by decide, rfl⟩

/-! ### C2: second reconciliation of an already-paid session -/

theorem updateFirst_eq_self (p : α → Bool) (f : α → α) (l : List α)
    (h : ∀ x ∈ l, p x = true → f x = x) : updateFirst p f l = l := by
  induction l with
  | nil => rfl
  | cons a t ih =>
    by_cases ha : p a = true
    · rw [updateFirst, if_pos ha, h a (List.mem_cons_self a t) ha]
    · rw [updateFirst, if_neg ha, ih (fun x hx hpx => h x (List.mem_cons_of_mem _ hx) hpx)]

theorem Reservation_set_status_eq (r : Reservation) (s : String)
    (h : r.status = s) : ({ r with status := s } : Reservation) = r := by
  cases r
  simp_all

/-- Paid subscription transaction for session `s1`, with the entitlement
already granted at day 10 (daily plan: `end_date = 11`). -/
def wDB2 : DBState :=
  { users := [⟨"A", "user", "daily"⟩],
    subscriptions := [⟨"A", "daily", some "s1", "paid", some 10, some 11, 0⟩],
    reservations := [],
    payment_transactions := [⟨"A", "s1", "paid", some "subscription", some "daily"⟩] }

/-- C2 counterexample: the stored transaction for `s1` is already `"paid"`,
yet a webhook delivery of the same session at day 20 re-applies the side
effect and moves the subscription window to `[20, 21]` — a second
entitlement grant, so reconciliation is not a no-op on the webhook path. -/
theorem C2_counterexample :
    (wDB2.payment_transactions.find? (fun t => t.session_id == "s1")).map
      (fun t => t.payment_status) = some "paid" ∧
    (stripe_webhook wDB2 "s1" 20).subscriptions =
      [⟨"A", "daily", some "s1", "paid", some 20, some 21, 0⟩] ∧
    (stripe_webhook wDB2 "s1" 20).subscriptions ≠ wDB2.subscriptions := by decide

/-- C2 amended: reconciling an already-paid session is a no-op on the
client-poll path (`get_subscription_status` returns before any write), and on
the webhook path the reservation-confirming write is idempotent (rewriting
`"confirmed"` leaves the collection unchanged); but the webhook applies the
subscription side effect unconditionally, re-stamping the matching
subscription with `start_date = now` and `end_date = now + duration` on every
delivery, so a repeated webhook at a later time re-grants the entitlement. -/
theorem C2_amended_reconciliation (db : DBState) (sid callerId provider : String)
    (now : Nat) (tx : PaymentTx)
    (htx : db.payment_transactions.find? (fun t => t.session_id == sid) = some tx) :
    (tx.payment_status = "paid" →
      get_subscription_status db sid callerId provider now = .alreadyPaid db) ∧
    (tx.metaType.getD "subscription" = "reservation" →
      (∀ r ∈ db.reservations, r.stripe_session_id = some sid → r.status = "confirmed") →
      ((stripe_webhook db sid now).reservations = db.reservations ∧
        (stripe_webhook db sid now).subscriptions = db.subscriptions ∧
        (stripe_webhook db sid now).users = db.users)) ∧
    (tx.metaType.getD "subscription" ≠ "reservation" →
      (stripe_webhook db sid now).subscriptions.find?
          (fun s => s.stripe_session_id == some sid) =
        (db.subscriptions.find? (fun s => s.stripe_session_id == some sid)).map
          (subMarkPaid now (planDuration (tx.metaPlanType.getD "monthly")))) := by
  have hfind2 : (updateFirst (fun t => t.session_id == sid)
      (fun t => { t with payment_status := "paid" }) db.payment_transactions).find?
        (fun t => t.session_id == sid) =
      some { tx with payment_status := "paid" } := by
    rw [find?_updateFirst_same (fun t => t.session_id == sid)
      (fun t => { t with payment_status := "paid" }) db.payment_transactions
      (fun x => rfl), htx]
    rfl
  refine ⟨?_, ?_, ?_⟩
  · intro hpaid
    simp [get_subscription_status, htx, hpaid]
  · intro hres hconf
    have hrs : updateFirst (fun r => r.stripe_session_id == some sid)
        (fun r => { r with status := "confirmed" }) db.reservations =
        db.reservations := by
      apply updateFirst_eq_self
      intro x hx hpx
      simp only [beq_iff_eq] at hpx
      exact Reservation_set_status_eq x "confirmed" (hconf x hx hpx)
    simp [stripe_webhook, hfind2, hres, hrs]
  · intro hnres
    have hcond : (({ tx with payment_status := "paid" } : PaymentTx).metaType.getD
        "subscription" == "reservation") = false := by
      simp only [beq_eq_false_iff_ne]
      exact hnres
    simp only [stripe_webhook, hfind2, hcond]
    simp only [Bool.false_eq_true, if_false]
    exact find?_updateFirst_same (fun s => s.stripe_session_id == some sid)
      (subMarkPaid now (planDuration (tx.metaPlanType.getD "monthly")))
      db.subscriptions (fun x => rfl)

/-- Confirmed reservation paid through session `s1`, for the C2 witness. -/
def wDB2r : DBState :=
  { users := [],
    subscriptions := [],
    reservations := [⟨"r1", "A", "2025-03-01", "09:00-09:20", 1, "confirmed", some "s1"⟩],
    payment_transactions := [⟨"A", "s1", "paid", some "reservation", none⟩] }

/-- C2 witness: the poll path on the already-paid session of `wDB2` returns
without writing; a repeated webhook on the confirmed reservation of `wDB2r`
leaves every collection unchanged; the webhook on the subscription session of
`wDB2` re-stamps the matching subscription from day 20. -/
theorem C2_amended_reconciliation_witness :
    get_subscription_status wDB2 "s1" "A" "paid" 20 = .alreadyPaid wDB2 ∧
    ((stripe_webhook wDB2r "s1" 20).reservations = wDB2r.reservations ∧
      (stripe_webhook wDB2r "s1" 20).subscriptions = wDB2r.subscriptions ∧
      (stripe_webhook wDB2r "s1" 20).users = wDB2r.users) ∧
    (stripe_webhook wDB2 "s1" 20).subscriptions.find?
        (fun s => s.stripe_session_id == some "s1") =
      (wDB2.subscriptions.find? (fun s => s.stripe_session_id == some "s1")).map
        (subMarkPaid 20 (planDuration ((some "daily" : Option String).getD "monthly"))) := by
  refine ⟨?_, ?_, ?_⟩
  · exact (C2_amended_reconciliation wDB2 "s1" "A" "paid" 20
      ⟨"A", "s1", "paid", some "subscription", some "daily"⟩ (by decide)).1 (by decide)
  · exact (C2_amended_reconciliation wDB2r "s1" "A" "paid" 20
      ⟨"A", "s1", "paid", some "reservation", none⟩ (by decide)).2.1 (by decide)
      (by decide)
  · exact (C2_amended_reconciliation wDB2 "s1" "A" "paid" 20
      ⟨"A", "s1", "paid", some "subscription", some "daily"⟩ (by decide)).2.2 (by decide)

/-! ### C3: upload completion checks only chunk cardinality -/

theorem concatChunks_eq_none (store : ChunkStore) (l : List Nat) :
    concatChunks store l = none ↔ ∃ i ∈ l, store i = none := by
  induction l with
  | nil => simp [concatChunks]
  | cons i rest ih =>
    cases hi : store i with
    | none =>
      simp only [concatChunks, hi]
      exact ⟨fun _ => ⟨i, List.mem_cons_self i rest, hi⟩, fun _ => trivial⟩
    | some c =>
      cases hr : concatChunks store rest with
      | none =>
        simp only [concatChunks, hi, hr]
        constructor
        · intro _
          obtain ⟨j, hj, hsj⟩ := ih.mp hr
          exact ⟨j, List.mem_cons_of_mem _ hj, hsj⟩
        · intro _
          trivial
      | some r =>
        simp only [concatChunks, hi, hr]
        constructor
        · intro hcontra
          exact Option.noConfusion hcontra
        · rintro ⟨j, hj, hsj⟩
          rcases List.mem_cons.mp hj with h | h
          · rw [h] at hsj
            rw [hsj] at hi
            exact Option.noConfusion hi
          · have : concatChunks store rest = none := ih.mpr ⟨j, h, hsj⟩
            rw [this] at hr
            exact Option.noConfusion hr

/-- Session whose received-index set has the right cardinality (2 of 2) but
is not `{0, 1}`: index 5 was received instead of index 1. -/
def wSession3 : UploadSession := ⟨"f.mp4", "orig.mp4", 10, 2, {0, 5}, "u"⟩

def wStore3 : ChunkStore := fun j => if j = 0 ∨ j = 5 then some [7] else none

/-- C3 counterexample: the received set `{0, 5}` has cardinality
`total_chunks = 2` but is not `{0, 1}`; `complete_chunked_upload` passes the
cardinality test and then fails with the generic 500 combine error (missing
chunk file 1), not with the IncompleteUpload error the claim requires. -/
theorem C3_counterexample :
    wSession3.received_chunks.card = wSession3.total_chunks ∧
    wSession3.received_chunks ≠ Finset.range wSession3.total_chunks ∧
    complete_chunked_upload (some wSession3) wStore3 = .combineError := by decide

/-- C3 amended: `complete_chunked_upload` fails with the incomplete-upload
error — which reports only the received and total counts, not the missing
indices — exactly when `len(received_chunks) != total_chunks`; when the
cardinalities agree the check passes even if the set is not
`{0, …, total_chunks-1}`, and completion then fails with the generic combine
error on the first missing chunk file (and succeeds when every chunk file in
range exists). -/
theorem C3_amended_complete_cardinality_only (info : UploadSession) (store : ChunkStore) :
    (∀ rc tc, complete_chunked_upload (some info) store = .incompleteUpload rc tc ↔
      (info.received_chunks.card ≠ info.total_chunks ∧
        rc = info.received_chunks.card ∧ tc = info.total_chunks)) ∧
    (info.received_chunks.card = info.total_chunks →
      (∃ i ∈ List.range info.total_chunks, store i = none) →
      complete_chunked_upload (some info) store = .combineError) ∧
    (info.received_chunks.card = info.total_chunks →
      (∀ i ∈ List.range info.total_chunks, store i ≠ none) →
      ∃ blob, complete_chunked_upload (some info) store = .completed info.filename blob) := by
  refine ⟨?_, ?_, ?_⟩
  · intro rc tc
    by_cases hcard : info.received_chunks.card = info.total_chunks
    · have hbe : (info.received_chunks.card == info.total_chunks) = true := by
        simp [hcard]
      constructor
      · intro hcontra
        exfalso
        cases hcc : concatChunks store (List.range info.total_chunks) with
        | none => simp [complete_chunked_upload, hbe, hcc] at hcontra
        | some blob => simp [complete_chunked_upload, hbe, hcc] at hcontra
      · rintro ⟨hne, _, _⟩
        exact absurd hcard hne
    · have hbe : (info.received_chunks.card == info.total_chunks) = false := by
        simp [hcard]
      have hval : complete_chunked_upload (some info) store =
          .incompleteUpload info.received_chunks.card info.total_chunks := by
        simp [complete_chunked_upload, hbe]
      constructor
      · intro heq
        rw [hval] at heq
        injection heq with h1 h2
        exact ⟨hcard, h1.symm, h2.symm⟩
      · rintro ⟨_, h1, h2⟩
        rw [h1, h2]
        exact hval
  · intro hcard hmiss
    have hbe : (info.received_chunks.card == info.total_chunks) = true := by
      simp [hcard]
    have hcc : concatChunks store (List.range info.total_chunks) = none :=
      (concatChunks_eq_none store _).mpr hmiss
    simp [complete_chunked_upload, hbe, hcc]
  · intro hcard hall
    have hbe : (info.received_chunks.card == info.total_chunks) = true := by
      simp [hcard]
    cases hcc : concatChunks store (List.range info.total_chunks) with
    | none =>
      obtain ⟨i, hi, hsi⟩ := (concatChunks_eq_none store _).mp hcc
      exact absurd hsi (hall i hi)
    | some blob =>
      exact ⟨blob, by simp [complete_chunked_upload, hbe, hcc]⟩

/-- Complete two-chunk session with both files present, for the C3 witness. -/
def wSession3b : UploadSession := ⟨"g.mp4", "orig.mp4", 4, 2, {0, 1}, "u"⟩

def wStore3b : ChunkStore := fun j => if j < 2 then some [j] else none

/-- C3 witness: the cardinality-matching but index-mismatched session of
`wSession3` passes the check and dies in the combine loop, while the genuinely
complete session of `wSession3b` finalises. -/
theorem C3_amended_complete_cardinality_only_witness :
    complete_chunked_upload (some wSession3) wStore3 = .combineError ∧
    (∃ blob, complete_chunked_upload (some wSession3b) wStore3b =
      .completed wSession3b.filename blob) ∧
    (complete_chunked_upload (some wSession3) wStore3 = .incompleteUpload 2 2 ↔
      (wSession3.received_chunks.card ≠ wSession3.total_chunks ∧
        2 = wSession3.received_chunks.card ∧ 2 = wSession3.total_chunks)) := by
  refine ⟨?_, ?_, ?_⟩
  · exact (C3_amended_complete_cardinality_only wSession3 wStore3).2.1 (by decide)
      (by decide)
  · exact (C3_amended_complete_cardinality_only wSession3b wStore3b).2.2 (by decide)
      (by decide)
  · exact (C3_amended_complete_cardinality_only wSession3 wStore3).1 2 2

/-! ### C5: slot catalog and all-cabins availability -/

/-- The booking-uniqueness invariant restricted to one date: among the
non-cancelled reservations of the date, no two records share the same
`(time_slot, cabin_number)` pair. -/
def bookingUniqueOn (resvs : List Reservation) (date : String) : Prop :=
  ((resvs.filter (fun r => r.reservation_date == date && r.status != "cancelled")).map
    (fun r => (r.time_slot, r.cabin_number))).Nodup

/-- Slot 09:00-09:20 of 2025-03-01 fully booked: three non-cancelled
reservations on cabins 1, 2 and 3. -/
def wResvs5 : List Reservation :=
  [⟨"r1", "A", "2025-03-01", "09:00-09:20", 1, "pending", none⟩,
   ⟨"r2", "B", "2025-03-01", "09:00-09:20", 2, "confirmed", none⟩,
   ⟨"r3", "C", "2025-03-01", "09:00-09:20", 3, "pending", none⟩]

/-- C5 counterexample: `09:00-09:20` is a catalog slot, but when its three
cabins are all booked the all-cabins availability result contains no entry
for it at all — the endpoint does not return a free-cabin count for *every*
catalog slot, it silently omits fully booked slots. -/
theorem C5_counterexample :
    "09:00-09:20" ∈ allSlots ∧
    (get_available_slots_all wResvs5 "2025-03-01").any
      (fun e => e.time_slot == "09:00-09:20") = false := by decide

/-- C5 amended: the catalog is the fixed ordered 27-element slot list; the
all-cabins query returns an entry exactly for the catalog slots with fewer
than three booked-reservation records, and that entry carries
`3 - len(booked)` and the cabins of `{1,2,3}` not booked; under the
booking-uniqueness invariant the booked list has no duplicate cabin, so the
count equals three minus the number of distinct occupied cabins.  Fully
booked slots are omitted from the result. -/
theorem C5_amended_availability (resvs : List Reservation) (date : String) :
    allSlots.length = 27 ∧
    allSlots =
      ["09:00-09:20", "09:20-09:40", "09:40-10:00", "10:00-10:20", "10:20-10:40",
       "10:40-11:00", "11:00-11:20", "11:20-11:40", "11:40-12:00", "12:00-12:20",
       "12:20-12:40", "12:40-13:00", "13:00-13:20", "13:20-13:40", "13:40-14:00",
       "14:00-14:20", "14:20-14:40", "14:40-15:00", "15:00-15:20", "15:20-15:40",
       "15:40-16:00", "16:00-16:20", "16:20-16:40", "16:40-17:00", "17:00-17:20",
       "17:20-17:40", "17:40-18:00"] ∧
    (∀ slot, (∃ e ∈ get_available_slots_all resvs date, e.time_slot = slot) ↔
      (slot ∈ allSlots ∧ (bookedCabinsFor resvs date slot).length < 3)) ∧
    (∀ e ∈ get_available_slots_all resvs date,
      e.available_cabins_count = 3 - (bookedCabinsFor resvs date e.time_slot).length ∧
      e.available_cabin_numbers =
        [1, 2, 3].filter (fun i => (bookedCabinsFor resvs date e.time_slot).contains i = false)) ∧
    (bookingUniqueOn resvs date → ∀ slot, (bookedCabinsFor resvs date slot).Nodup) := by
  refine ⟨by decide, by decide, ?_, ?_, ?_⟩
  · intro slot
    constructor
    · rintro ⟨e, he, hslot⟩
      simp only [get_available_slots_all, List.mem_filterMap] at he
      obtain ⟨a, ha, hfa⟩ := he
      split at hfa
      next hpos =>
        injection hfa with hfe
        subst hfe
        simp only at hslot
        subst hslot
        exact ⟨ha, by omega⟩
      next => exact absurd hfa (by simp)
    · rintro ⟨hmem, hlen⟩
      refine ⟨⟨slot, 3 - (bookedCabinsFor resvs date slot).length,
        [1, 2, 3].filter (fun i => (bookedCabinsFor resvs date slot).contains i = false)⟩,
        ?_, rfl⟩
      simp only [get_available_slots_all, List.mem_filterMap]
      refine ⟨slot, hmem, ?_⟩
      rw [if_pos (by omega)]
  · intro e he
    simp only [get_available_slots_all, List.mem_filterMap] at he
    obtain ⟨a, ha, hfa⟩ := he
    split at hfa
    next hpos =>
      injection hfa with hfe
      subst hfe
      exact ⟨rfl, rfl⟩
    next => exact absurd hfa (by simp)
  · intro hu slot
    have hsub : List.Sublist ((resvs.filter (fun r => r.reservation_date == date &&
        r.status != "cancelled")).filter (fun r => r.time_slot == slot))
        (resvs.filter (fun r => r.reservation_date == date && r.status != "cancelled")) :=
      List.filter_sublist _
    have hnd2 : (((resvs.filter (fun r => r.reservation_date == date &&
        r.status != "cancelled")).filter (fun r => r.time_slot == slot)).map
        (fun r => (r.time_slot, r.cabin_number))).Nodup :=
      List.Nodup.sublist (hsub.map _) hu
    have hinj := List.inj_on_of_nodup_map hnd2
    have hndl : ((resvs.filter (fun r => r.reservation_date == date &&
        r.status != "cancelled")).filter (fun r => r.time_slot == slot)).Nodup :=
      hnd2.of_map
    apply List.Nodup.map_on ?_ hndl
    intro x hx y hy hxy
    have hxs : x.time_slot = slot := by
      have := (List.mem_filter.mp hx).2
      simpa using this
    have hys : y.time_slot = slot := by
      have := (List.mem_filter.mp hy).2
      simpa using this
    apply hinj hx hy
    simp only [Prod.ext_iff]
    exact ⟨by rw [hxs, hys], hxy⟩

/-- Entry for the empty-day availability query, for the C5 witness. -/
def wEntry5 : SlotAvailability := ⟨"09:00-09:20", 3, [1, 2, 3]⟩

/-- C5 witness: with no reservations the slot `09:00-09:20` appears with
three free cabins; a day satisfying the uniqueness invariant yields
duplicate-free booked-cabin lists. -/
theorem C5_amended_availability_witness :
    (∃ e ∈ get_available_slots_all [] "2025-03-01", e.time_slot = "09:00-09:20") ∧
    (wEntry5.available_cabins_count =
      3 - (bookedCabinsFor [] "2025-03-01" wEntry5.time_slot).length ∧
      wEntry5.available_cabin_numbers = [1, 2, 3].filter
        (fun i => (bookedCabinsFor [] "2025-03-01" wEntry5.time_slot).contains i = false)) ∧
    (bookedCabinsFor wResvs5 "2025-03-01" "10:00-10:20").Nodup := by
  refine ⟨?_, ?_, ?_⟩
  · exact ((C5_amended_availability [] "2025-03-01").2.2.1 "09:00-09:20").mpr
      ⟨by decide, by decide⟩
  · exact (C5_amended_availability [] "2025-03-01").2.2.2.1 wEntry5 (by decide)
  · exact (C5_amended_availability wResvs5 "2025-03-01").2.2.2.2
      (by unfold bookingUniqueOn; decide) "10:00-10:20"

/-! ### C6: order-independent chunk reassembly -/

theorem runUploads_cons (st : UploadSession × ChunkStore) (d : Nat × List Nat)
    (ds : List (Nat × List Nat)) (c : String) :
    runUploads st (d :: ds) c =
      runUploads
        (match upload_chunk (some st.1) st.2 c d.1 d.2 with
          | .saved s2 store2 _ _ => (s2, store2)
          | _ => st) ds c := rfl

theorem upload_chunk_owner (info : UploadSession) (store : ChunkStore) (idx : Nat)
    (payload : List Nat) :
    upload_chunk (some info) store info.user_id idx payload =
      .saved { info with received_chunks := insert idx info.received_chunks }
        (fun j => if j = idx then some payload else store j)
        (insert idx info.received_chunks).card info.total_chunks := by
  simp [upload_chunk]

theorem runUploads_step_owner (sess : UploadSession) (store : ChunkStore) (c : String)
    (hc : sess.user_id = c) (d : Nat × List Nat) (ds : List (Nat × List Nat)) :
    runUploads (sess, store) (d :: ds) c =
      runUploads ({ sess with received_chunks := insert d.1 sess.received_chunks },
        fun j => if j = d.1 then some d.2 else store j) ds c := by
  subst hc
  rw [runUploads_cons, upload_chunk_owner]

theorem runUploads_session_fields (sess : UploadSession) (store : ChunkStore)
    (c : String) (ds : List (Nat × List Nat)) :
    (runUploads (sess, store) ds c).1.user_id = sess.user_id ∧
    (runUploads (sess, store) ds c).1.total_chunks = sess.total_chunks ∧
    (runUploads (sess, store) ds c).1.filename = sess.filename := by
  induction ds generalizing sess store with
  | nil => exact ⟨rfl, rfl, rfl⟩
  | cons d rest ih =>
    by_cases hc : sess.user_id = c
    · rw [runUploads_step_owner sess store c hc d rest]
      exact ih _ _
    · have hup : upload_chunk (some sess) store c d.1 d.2 = .forbidden := by
        simp [upload_chunk, hc]
      rw [runUploads_cons, hup]
      exact ih _ _

theorem runUploads_received (sess : UploadSession) (store : ChunkStore) (c : String)
    (hc : sess.user_id = c) (ds : List (Nat × List Nat)) :
    (runUploads (sess, store) ds c).1.received_chunks =
      sess.received_chunks ∪ (ds.map Prod.fst).toFinset := by
  induction ds generalizing sess store with
  | nil => simp [runUploads]
  | cons d rest ih =>
    rw [runUploads_step_owner sess store c hc d rest,
      ih { sess with received_chunks := insert d.1 sess.received_chunks }
        (fun j => if j = d.1 then some d.2 else store j) hc]
    ext x
    simp only [Finset.mem_union, Finset.mem_insert, List.map_cons, List.toFinset_cons,
      List.mem_toFinset]
    tauto

theorem runUploads_store_eq (sess : UploadSession) (store : ChunkStore) (c : String)
    (hc : sess.user_id = c) (ds : List (Nat × List Nat))
    (hnd : (ds.map Prod.fst).Nodup) (j : Nat) :
    (runUploads (sess, store) ds c).2 j =
      (match ds.find? (fun d => d.1 == j) with
        | some d => some d.2
        | none => store j) := by
  induction ds generalizing sess store with
  | nil => rfl
  | cons d rest ih =>
    have hnd2 : (rest.map Prod.fst).Nodup := by
      simp only [List.map_cons, List.nodup_cons] at hnd
      exact hnd.2
    have hdub : d.1 ∉ rest.map Prod.fst := by
      simp only [List.map_cons, List.nodup_cons] at hnd
      exact hnd.1
    rw [runUploads_step_owner sess store c hc d rest,
      ih { sess with received_chunks := insert d.1 sess.received_chunks }
        (fun j => if j = d.1 then some d.2 else store j) hc hnd2]
    by_cases hj : d.1 = j
    · subst hj
      have hfr : rest.find? (fun e => e.1 == d.1) = none := by
        rw [List.find?_eq_none]
        intro e he hbe
        apply hdub
        simp only [beq_iff_eq] at hbe
        rw [← hbe]
        exact List.mem_map.mpr ⟨e, he, rfl⟩
      rw [List.find?_cons_of_pos _ (by simp), hfr]
      simp
    · rw [List.find?_cons_of_neg _ (by simp [hj])]
      cases hfr : rest.find? (fun e => e.1 == j) with
      | some e => rfl
      | none => simp [show ¬(j = d.1) from fun h => hj h.symm]

theorem map_fst_pair_map (payload : Nat → List Nat) (l : List Nat) :
    ((l.map fun i => (i, payload i)).map Prod.fst) = l := by
  induction l with
  | nil => rfl
  | cons a t ih =>
    simp only [List.map_cons, ih]

theorem concatChunks_all_some (store : ChunkStore) (payload : Nat → List Nat)
    (l : List Nat) (h : ∀ i ∈ l, store i = some (payload i)) :
    concatChunks store l = some (l.flatMap payload) := by
  induction l with
  | nil => rfl
  | cons i rest ih =>
    simp only [concatChunks, h i (List.mem_cons_self i rest),
      ih (fun x hx => h x (List.mem_cons_of_mem _ hx))]
    rfl

theorem find?_pair_map (payload : Nat → List Nat) (perm : List Nat) (j : Nat)
    (hj : j ∈ perm) :
    (perm.map (fun i => (i, payload i))).find? (fun d => d.1 == j) =
      some (j, payload j) := by
  induction perm with
  | nil => cases hj
  | cons a t ih =>
    by_cases ha : a = j
    · subst ha
      rw [List.map_cons, List.find?_cons_of_pos _ (by simp)]
    · rw [List.map_cons, List.find?_cons_of_neg _ (by simp [ha])]
      refine ih ?_
      rcases List.mem_cons.mp hj with h | h
      · exact absurd h.symm ha
      · exact h

/-- C6: for a session with `total_chunks = n` and any permutation of the
in-range indices as arrival order, completion concatenates the chunk
payloads strictly by index `0, …, n-1`, producing the same blob as in-order
delivery (the right-hand side does not mention the permutation); and
re-sending the same index overwrites the previous payload idempotently. -/
theorem C6_out_of_order_assembly (n : Nat) (payload : Nat → List Nat)
    (perm : List Nat) (sess : UploadSession)
    (hperm : perm.Perm (List.range n))
    (hn : sess.total_chunks = n)
    (hrc : sess.received_chunks = ∅) :
    complete_chunked_upload
      (some (runUploads (sess, fun _ => none) (perm.map fun i => (i, payload i))
        sess.user_id).1)
      (runUploads (sess, fun _ => none) (perm.map fun i => (i, payload i))
        sess.user_id).2 =
      .completed sess.filename ((List.range n).flatMap payload) ∧
    (∀ st : UploadSession × ChunkStore, ∀ i : Nat, ∀ p q : List Nat,
      runUploads st [(i, p), (i, q)] sess.user_id =
        runUploads st [(i, q)] sess.user_id) := by
  constructor
  · have hmapfst : ((perm.map fun i => (i, payload i)).map Prod.fst) = perm :=
      map_fst_pair_map payload perm
    have hndperm : perm.Nodup := (hperm.nodup_iff).mpr (List.nodup_range n)
    have hndds : ((perm.map fun i => (i, payload i)).map Prod.fst).Nodup := by
      rw [hmapfst]
      exact hndperm
    have hfields := runUploads_session_fields sess (fun _ => none) sess.user_id
      (perm.map fun i => (i, payload i))
    have hrecv := runUploads_received sess (fun _ => none) sess.user_id rfl
      (perm.map fun i => (i, payload i))
    have hstore := runUploads_store_eq sess (fun _ => none) sess.user_id rfl
      (perm.map fun i => (i, payload i)) hndds
    have hrecv2 : (runUploads (sess, fun _ => none) (perm.map fun i => (i, payload i))
        sess.user_id).1.received_chunks = (List.range n).toFinset := by
      rw [hrecv, hrc, hmapfst, Finset.empty_union]
      ext x
      simp [List.mem_toFinset, hperm.mem_iff]
    have hcard : (runUploads (sess, fun _ => none) (perm.map fun i => (i, payload i))
        sess.user_id).1.received_chunks.card = n := by
      rw [hrecv2, List.toFinset_card_of_nodup (List.nodup_range n), List.length_range]
    have htot : (runUploads (sess, fun _ => none) (perm.map fun i => (i, payload i))
        sess.user_id).1.total_chunks = n := by
      rw [hfields.2.1, hn]
    have hstore2 : ∀ i ∈ List.range n,
        (runUploads (sess, fun _ => none) (perm.map fun i => (i, payload i))
          sess.user_id).2 i = some (payload i) := by
      intro i hi
      have hip : i ∈ perm := (hperm.mem_iff).mpr hi
      rw [hstore i, find?_pair_map payload perm i hip]
    have hconcat := concatChunks_all_some
      (runUploads (sess, fun _ => none) (perm.map fun i => (i, payload i))
        sess.user_id).2 payload (List.range n) hstore2
    have hbe : ((runUploads (sess, fun _ => none) (perm.map fun i => (i, payload i))
        sess.user_id).1.received_chunks.card ==
        (runUploads (sess, fun _ => none) (perm.map fun i => (i, payload i))
          sess.user_id).1.total_chunks) = true := by
      simp [hcard, htot]
    simp only [complete_chunked_upload, hbe]
    rw [htot, hconcat, hfields.2.2]
    simp
  · intro st i p q
    obtain ⟨s0, c0⟩ := st
    by_cases hc : s0.user_id = sess.user_id
    · rw [runUploads_step_owner s0 c0 sess.user_id hc (i, p) [(i, q)],
        runUploads_step_owner { s0 with received_chunks := insert (i, p).1 s0.received_chunks }
          (fun j => if j = (i, p).1 then some (i, p).2 else c0 j) sess.user_id hc (i, q) [],
        runUploads_step_owner s0 c0 sess.user_id hc (i, q) []]
      simp only [runUploads, List.foldl_nil]
      refine Prod.ext ?_ ?_
      · cases s0
        simp [Finset.insert_idem]
      · funext j
        by_cases hj : j = i
        · simp [hj]
        · simp [hj]
    · have hstep : ∀ d : Nat × List Nat, ∀ ds : List (Nat × List Nat),
          runUploads (s0, c0) (d :: ds) sess.user_id =
            runUploads (s0, c0) ds sess.user_id := by
        intro d ds
        have hup : upload_chunk (some s0) c0 sess.user_id d.1 d.2 = .forbidden := by
          simp [upload_chunk, hc]
        rw [runUploads_cons, hup]
      rw [hstep, hstep]

/-- Fresh three-chunk session for the C6 witness. -/
def wSess6 : UploadSession := ⟨"f.mp4", "orig.mp4", 6, 3, ∅, "u"⟩

def wPayload6 : Nat → List Nat := fun i => [i, i + 10]

def wSt6 : UploadSession × ChunkStore := (wSess6, fun _ => none)

/-- C6 witness: delivering chunks 2, 0, 1 of a three-chunk upload completes
to the in-index-order blob, and re-sending index 0 overwrites the earlier
payload. -/
theorem C6_out_of_order_assembly_witness :
    complete_chunked_upload
      (some (runUploads (wSess6, fun _ => none)
        ([2, 0, 1].map fun i => (i, wPayload6 i)) wSess6.user_id).1)
      (runUploads (wSess6, fun _ => none)
        ([2, 0, 1].map fun i => (i, wPayload6 i)) wSess6.user_id).2 =
      .completed wSess6.filename ((List.range 3).flatMap wPayload6) ∧
    runUploads wSt6 [(0, [7]), (0, [8])] wSess6.user_id =
      runUploads wSt6 [(0, [8])] wSess6.user_id := by
  have h := C6_out_of_order_assembly 3 wPayload6 [2, 0, 1] wSess6 (by decide) rfl rfl
  exact ⟨h.1, h.2 wSt6 0 [7] [8]⟩

/-! ### C1: slot conflict on create, and rebooking after cancellation -/

theorem updateFirst_mem_of_nodup_id (f : Reservation → Reservation)
    (l : List Reservation) (rv : Reservation)
    (hnd : (l.map (fun r => r.id)).Nodup) (hrv : rv ∈ l) :
    ∀ x ∈ updateFirst (fun r => r.id == rv.id) f l,
      x = f rv ∨ (x ∈ l ∧ x.id ≠ rv.id) := by
  induction l with
  | nil => cases hrv
  | cons a t ih =>
    have hnd2 : (t.map (fun r => r.id)).Nodup := by
      simp only [List.map_cons, List.nodup_cons] at hnd
      exact hnd.2
    have hna : a.id ∉ t.map (fun r => r.id) := by
      simp only [List.map_cons, List.nodup_cons] at hnd
      exact hnd.1
    by_cases ha : (a.id == rv.id) = true
    · simp only [beq_iff_eq] at ha
      have harv : a = rv := by
        rcases List.mem_cons.mp hrv with h | h
        · exact h.symm
        · exact absurd (List.mem_map.mpr ⟨rv, h, rfl⟩) (ha ▸ hna)
      rw [updateFirst, if_pos (by simp [ha])]
      intro x hx
      rcases List.mem_cons.mp hx with h | h
      · left
        rw [h, harv]
      · right
        refine ⟨List.mem_cons_of_mem _ h, ?_⟩
        intro hxid
        exact hna (ha ▸ hxid ▸ List.mem_map.mpr ⟨x, h, rfl⟩)
    · have hat : a.id ≠ rv.id := by simpa using ha
      have hrvt : rv ∈ t := by
        rcases List.mem_cons.mp hrv with h | h
        · exact absurd (show a.id = rv.id by rw [h]) hat
        · exact h
      rw [updateFirst, if_neg ha]
      intro x hx
      rcases List.mem_cons.mp hx with h | h
      · right
        exact ⟨h ▸ List.mem_cons_self a t, h ▸ hat⟩
      · rcases ih hnd2 hrvt x h with h1 | ⟨h2, h3⟩
        · exact Or.inl h1
        · exact Or.inr ⟨List.mem_cons_of_mem _ h2, h3⟩

/-- C1: with a valid cabin, `create_reservation_checkout` fails with the slot
conflict exactly when a non-cancelled reservation occupies the triple, and
otherwise appends a `"pending"` record; and when the sole non-cancelled
occupier of `(date, slot)` is cancelled by its owner, the cabin-specific
availability lists the slot again, the all-cabins availability lists the
cabin as free for the slot, and a fresh create for the identical triple
succeeds. -/
theorem C1_create_conflict_and_rebook (resvs : List Reservation)
    (uid date slot : String) (cabin : Nat) (nid sid : String)
    (hc : cabin = 1 ∨ cabin = 2 ∨ cabin = 3) :
    (create_reservation_checkout resvs uid date slot cabin nid sid = .slotConflict ↔
      ∃ r ∈ resvs, occupiesTriple r date slot cabin = true) ∧
    ((∀ r ∈ resvs, occupiesTriple r date slot cabin = false) →
      create_reservation_checkout resvs uid date slot cabin nid sid =
        .created (resvs ++ [⟨nid, uid, date, slot, cabin, "pending", some sid⟩])) ∧
    (∀ rv ∈ resvs, occupiesTriple rv date slot cabin = true →
      (∀ r2 ∈ resvs, r2.reservation_date = date → r2.time_slot = slot →
        r2.status ≠ "cancelled" → r2.id = rv.id) →
      (resvs.map (fun r => r.id)).Nodup →
      slot ∈ allSlots →
      ∃ resvs2, update_reservation resvs rv.user_id rv.id "cancelled" = .updated resvs2 ∧
        slot ∈ get_available_slots_cabin resvs2 date cabin ∧
        ((get_available_slots_all resvs2 date).any
          (fun e => e.time_slot == slot && e.available_cabin_numbers.contains cabin)) =
            true ∧
        create_reservation_checkout resvs2 uid date slot cabin nid sid =
          .created (resvs2 ++ [⟨nid, uid, date, slot, cabin, "pending", some sid⟩])) := by
  have hvalid : (cabin == 1 || cabin == 2 || cabin == 3) = true := by
    rcases hc with h | h | h <;> simp [h]
  refine ⟨?_, ?_, ?_⟩
  · by_cases hany : resvs.any (fun r => occupiesTriple r date slot cabin) = true
    · rw [create_reservation_checkout, if_neg (by simp [hvalid]), if_pos hany]
      simp only [true_iff]
      exact List.any_eq_true.mp hany
    · rw [create_reservation_checkout, if_neg (by simp [hvalid]), if_neg hany]
      constructor
      · intro hcontra
        exact absurd hcontra (by simp)
      · intro hex
        exact absurd (List.any_eq_true.mpr hex) hany
  · intro hnone
    have hany : resvs.any (fun r => occupiesTriple r date slot cabin) = false := by
      rw [Bool.eq_false_iff]
      intro hcontra
      obtain ⟨r, hr, hocc⟩ := List.any_eq_true.mp hcontra
      rw [hnone r hr] at hocc
      exact Bool.noConfusion hocc
    rw [create_reservation_checkout, if_neg (by simp [hvalid]), if_neg (by simp [hany])]
  · intro rv hrv hocc honly hnd hslot
    have hfind : resvs.find? (fun r => r.id == rv.id && r.user_id == rv.user_id) ≠
        none := by
      intro hnone
      rw [List.find?_eq_none] at hnone
      exact hnone rv hrv (by simp)
    obtain ⟨r0, hr0⟩ := Option.ne_none_iff_exists'.mp hfind
    have hchar := updateFirst_mem_of_nodup_id
      (fun r => { r with status := "cancelled" }) resvs rv hnd hrv
    have hnoocc : ∀ x ∈ updateFirst (fun r => r.id == rv.id)
        (fun r => { r with status := "cancelled" }) resvs,
        ¬(x.reservation_date = date ∧ x.time_slot = slot ∧ x.status ≠ "cancelled") := by
      rintro x hx ⟨h1, h2, h3⟩
      rcases hchar x hx with hfx | ⟨hxl, hxid⟩
      · exact h3 (by rw [hfx])
      · exact hxid (honly x hxl h1 h2 h3)
    refine ⟨updateFirst (fun r => r.id == rv.id)
      (fun r => { r with status := "cancelled" }) resvs,
      by simp [update_reservation, hr0], ?_, ?_, ?_⟩
    · rw [get_available_slots_cabin]
      rw [List.mem_filter]
      refine ⟨hslot, ?_⟩
      simp only [decide_eq_true_eq]
      rw [Bool.eq_false_iff]
      intro hcontra
      rw [List.contains_eq_any_beq] at hcontra
      obtain ⟨y, hy, hby⟩ := List.any_eq_true.mp hcontra
      obtain ⟨x, hxmem, hxy⟩ := List.mem_map.mp hy
      have hxf := List.mem_filter.mp hxmem
      simp only [Bool.and_eq_true, beq_iff_eq, bne_iff_ne] at hxf
      simp only [beq_iff_eq] at hby
      exact hnoocc x hxf.1 ⟨hxf.2.1.1, by rw [hxy, ← hby], hxf.2.2⟩
    · rw [List.any_eq_true]
      have hbooked : bookedCabinsFor (updateFirst (fun r => r.id == rv.id)
          (fun r => { r with status := "cancelled" }) resvs) date slot = [] := by
        rw [bookedCabinsFor, List.map_eq_nil_iff, List.filter_eq_nil_iff]
        intro x hx hts
        have hxf := List.mem_filter.mp hx
        simp only [Bool.and_eq_true, beq_iff_eq, bne_iff_ne] at hxf
        simp only [beq_iff_eq] at hts
        exact hnoocc x hxf.1 ⟨hxf.2.1, hts, hxf.2.2⟩
      refine ⟨⟨slot, 3, [1, 2, 3]⟩, ?_, ?_⟩
      · rw [get_available_slots_all, List.mem_filterMap]
        refine ⟨slot, hslot, ?_⟩
        rw [hbooked]
        rfl
      · simp only [Bool.and_eq_true, beq_iff_eq]
        refine ⟨trivial, ?_⟩
        rcases hc with h | h | h <;> simp [h]
    · have hany2 : (updateFirst (fun r => r.id == rv.id)
          (fun r => { r with status := "cancelled" }) resvs).any
          (fun r => occupiesTriple r date slot cabin) = false := by
        rw [Bool.eq_false_iff]
        intro hcontra
        obtain ⟨x, hx, hxo⟩ := List.any_eq_true.mp hcontra
        rw [occupiesTriple] at hxo
        simp only [Bool.and_eq_true, beq_iff_eq, bne_iff_ne] at hxo
        exact hnoocc x hx ⟨hxo.1.1.1, hxo.1.1.2, hxo.2⟩
      rw [create_reservation_checkout, if_neg (by simp [hvalid]),
        if_neg (by simp [hany2])]

/-- Singleton occupier of (2025-03-01, 09:00-09:20, cabin 1), for the C1
witness. -/
def wResvs1 : List Reservation :=
  [⟨"r1", "A", "2025-03-01", "09:00-09:20", 1, "pending", some "s1"⟩]

/-- C1 witness, the spec scenario: a second create for the occupied triple
conflicts; after the owner cancels, the slot reappears for cabin 1 in both
availability views and a third create succeeds as pending. -/
theorem C1_create_conflict_and_rebook_witness :
    create_reservation_checkout wResvs1 "B" "2025-03-01" "09:00-09:20" 1 "r2" "s2" =
      .slotConflict ∧
    (∃ resvs2, update_reservation wResvs1 "A" "r1" "cancelled" = .updated resvs2 ∧
      "09:00-09:20" ∈ get_available_slots_cabin resvs2 "2025-03-01" 1 ∧
      ((get_available_slots_all resvs2 "2025-03-01").any
        (fun e => e.time_slot == "09:00-09:20" &&
          e.available_cabin_numbers.contains 1)) = true ∧
      create_reservation_checkout resvs2 "B" "2025-03-01" "09:00-09:20" 1 "r2" "s2" =
        .created (resvs2 ++ [⟨"r2", "B", "2025-03-01", "09:00-09:20", 1, "pending",
          some "s2"⟩])) := by
  constructor
  · exact (C1_create_conflict_and_rebook wResvs1 "B" "2025-03-01" "09:00-09:20" 1
      "r2" "s2" (Or.inl rfl)).1.mpr
      ⟨⟨"r1", "A", "2025-03-01", "09:00-09:20", 1, "pending", some "s1"⟩,
        by decide, by decide⟩
  · exact (C1_create_conflict_and_rebook wResvs1 "B" "2025-03-01" "09:00-09:20" 1
      "r2" "s2" (Or.inl rfl)).2.2
      ⟨"r1", "A", "2025-03-01", "09:00-09:20", 1, "pending", some "s1"⟩
      (by decide) (by decide) (by decide) (by decide) (by decide)
